import Mathlib

/-!
Shallow embedding of the core of the AI-feishu-bot repository
(inbound-event deduplication/admission pipeline in `message.py` /
`event_handler.py`, and the record-normalization engine in
`doc_fetcher.py`), together with theorems settling the frozen claims.

Modelling conventions:
* Python strings are Lean `String`s; Python `str.replace`, `str.strip`,
  `in` (substring test) and `str.startswith` are re-implemented below on
  `List Char` so that every definition is executable and kernel-reducible.
* Machine time is passed explicitly (`now`), epoch seconds as `Int` for the
  admission filter (the source uses `int(time.time())`) and as `ℚ` for the
  digest time filter (the source uses `datetime` values, modelled as exact
  seconds since the epoch; `timedelta(days = d)` is `d * 86400` seconds).
* Network calls are oracles: the LLM wrapper `call_ai_model` is a total
  `String → String` (its underlying `llm_request` catches every exception
  internally and returns a value), `reply_message` either succeeds or
  raises (a `Bool`-valued oracle), and `get_image_key` either returns a key
  or raises (`String → Option String`, `none` = exception).
* Python exceptions are modelled by `Option`/outcome values; a `try/except`
  that swallows an exception becomes a total function.
-/

/-! ### Python string primitives -/

/-- Python list/str initial-segment test: `headMatches needle hay` is true
iff `needle` is an initial segment of `hay`. -/
def headMatches : List Char → List Char → Bool
  | [], _ => true
  | _ :: _, [] => false
  | a :: as, b :: bs => a = b && headMatches as bs

/-- Python's substring containment test `needle in hay` on `List Char`. -/
def listContainsChars (needle : List Char) : List Char → Bool
  | [] => headMatches needle []
  | c :: t => headMatches needle (c :: t) || listContainsChars needle t

/-- Python's `needle in hay` for strings. -/
def strContains (needle hay : String) : Bool :=
  listContainsChars needle.toList hay.toList

/-- Fuel-indexed core of Python `str.replace`: scan left to right, replace
each non-overlapping occurrence of `pat` by `rep`, never rescanning the
replacement.  Each step consumes at least one input character, so fuel equal
to the input length suffices. -/
def replFuel (pat rep : List Char) : Nat → List Char → List Char
  | 0, l => l
  | _ + 1, [] => []
  | fuel + 1, c :: t =>
    if headMatches pat (c :: t) then
      rep ++ replFuel pat rep fuel (List.drop (pat.length - 1) t)
    else
      c :: replFuel pat rep fuel t

/-- Python `s.replace(pat, rep)`.  Every call site in the source guards the
pattern to be non-empty (`if mention.key:` and the literal patterns in the
description normalization), so the empty-pattern case is left as the
identity. -/
def pyReplace (s pat rep : String) : String :=
  if pat = "" then s
  else String.mk (replFuel pat.toList rep.toList s.toList.length s.toList)

/-- Python `s.strip()` (source call sites only ever deal with ASCII
whitespace, covered by `Char.isWhitespace`). -/
def pyStrip (s : String) : String :=
  String.mk (((s.toList.dropWhile Char.isWhitespace).reverse.dropWhile
    Char.isWhitespace).reverse)

/-- Python `s.startswith("img_")` as used by `extract_img_keys`. -/
def startsWithImg (s : String) : Bool :=
  headMatches "img_".toList s.toList

/-! ### Configuration constants (config.py) -/

/-- `MAX_MESSAGE_AGE = 300` (seconds), config.py line 24. -/
def MAX_MESSAGE_AGE : Int := 300

/-- `WEEKLY_REPORT_FILTER_DAYS = 7` (days), config.py line 27. -/
def WEEKLY_REPORT_FILTER_DAYS : ℚ := 7

/-- `BOT_NAME = "CSM-AI"`, config.py line 45. -/
def BOT_NAME : String := "CSM-AI"

/-! ### Dedup ledger (message.py) -/

/-- The dedup ledger: the in-memory set `processed_messages` (a Python
`set`, modelled as a duplicate-free-by-construction list) together with the
persisted append-only log file `PROCESSED_MESSAGES_FILE` (one id per
line). -/
structure Ledger where
  mem : List String
  log : List String
deriving DecidableEq

/-- `mark_message_processed` (message.py lines 80-88): idempotent insert
into the in-memory set, plus an unconditional append of the id to the
persisted log (`save_processed_message` opens the file in mode "a" and
writes one line; the modelled run has the append succeed). -/
def mark_message_processed (st : Ledger) (message_id : String) : Ledger :=
  { mem := if st.mem.contains message_id then st.mem else message_id :: st.mem
    log := st.log ++ [message_id] }

/-- `is_message_valid` (message.py lines 51-78): membership test against
`processed_messages` first, then the age bound `message_age >
MAX_MESSAGE_AGE`; `now` stands for `int(time.time())`. -/
def is_message_valid (st : Ledger) (now : Int) (message_id : String)
    (message_time : Int) : Bool :=
  if st.mem.contains message_id then false
  else if now - message_time > MAX_MESSAGE_AGE then false
  else true

/-- Which rejection branch of `is_message_valid` fires (identified in the
source by the two distinct log lines "already processed" and "too old"). -/
inductive AdmissionReason
  | duplicate
  | tooOld
deriving DecidableEq

/-- The rejection reason of `is_message_valid`, mirroring its `if` chain:
the duplicate test is evaluated first, the age test second. -/
def admissionReject (st : Ledger) (now : Int) (message_id : String)
    (message_time : Int) : Option AdmissionReason :=
  if st.mem.contains message_id then some .duplicate
  else if now - message_time > MAX_MESSAGE_AGE then some .tooOld
  else none

/-! ### Event handler (event_handler.py) -/

/-- One entry of `message.mentions`: `mention.name` and `mention.key`.  An
absent key is modelled as the empty string (both are falsy). -/
structure Mention where
  name : String
  key : String
deriving DecidableEq

/-- The parsed `message.content`: `json.loads` either yields a dict (whose
`"text"` entry may be absent) or a non-dict value, which the handler
stringifies (`str(content)`). -/
inductive MsgContent
  | dict (text : Option String)
  | nonDict (asStr : String)
deriving DecidableEq

/-- The fields of the inbound message event that the handler reads. -/
structure InMessage where
  message_id : String
  chat_type : String
  content : MsgContent
  mentions : List Mention
deriving DecidableEq

/-- `text_content` (event_handler.py line 89): `content.get("text", "")`
when the parsed content is a dict, `str(content)` otherwise. -/
def text_content_of : MsgContent → String
  | .dict t => t.getD ""
  | .nonDict s => s

/-- The mention-cleaning loop (event_handler.py lines 129-131): for each
mention with a truthy key, `query_text = query_text.replace(mention.key,
"").strip()` — note that `.strip()` is applied after every replacement, in
mention-list order. -/
def clean_mentions : String → List Mention → String
  | q, [] => q
  | q, m :: rest =>
    if m.key ≠ "" then clean_mentions (pyStrip (pyReplace q m.key "")) rest
    else clean_mentions q rest

/-- Terminal observable of one run of the handler; each constructor
corresponds to one `return` path (or, for `errored`, to the outer
`except`). -/
inductive Outcome
  | invalid
  | notGroup
  | noMention
  | notBotMentioned
  | emptyQuery
  | replied (query reply : String)
  | errored
deriving DecidableEq

/-- `do_p2_im_message_receive_v1` (event_handler.py lines 34-160), from the
point where the tenant token is fetched and the event passed the
`im.message.receive_v1` type check.  `llm` models `call_ai_model` (total:
`llm_request` catches its own exceptions and returns a value, which
`call_ai_model` stringifies), `replyOk` models whether `reply_message`
returns normally (`false` = it raises, which the outer `except` catches,
skipping `mark_message_processed`). -/
def do_p2_im_message_receive_v1 (llm : String → String)
    (replyOk : String → Bool) (now : Int) (msg : InMessage)
    (message_time : Int) (st : Ledger) : Ledger × Outcome :=
  if ¬ (is_message_valid st now msg.message_id message_time = true) then
    (mark_message_processed st msg.message_id, .invalid)
  else if msg.chat_type ≠ "group" then
    (mark_message_processed st msg.message_id, .notGroup)
  else
    let text_content := text_content_of msg.content
    if msg.mentions = [] ∧ strContains BOT_NAME text_content = false then
      (mark_message_processed st msg.message_id, .noMention)
    else
      let bot_mentioned :=
        if msg.mentions ≠ [] then
          msg.mentions.any (fun m => m.name = BOT_NAME)
        else strContains BOT_NAME text_content
      if ¬ (bot_mentioned = true) then
        (mark_message_processed st msg.message_id, .notBotMentioned)
      else
        let query_text :=
          match msg.content with
          | .dict (some t) =>
            if msg.mentions ≠ [] then clean_mentions t msg.mentions
            else text_content
          | _ => text_content
        if query_text = "" then
          (mark_message_processed st msg.message_id, .emptyQuery)
        else
          let ai_response := llm query_text
          if replyOk ai_response then
            (mark_message_processed st msg.message_id,
              .replied query_text ai_response)
          else
            (st, .errored)

/-! ### Record normalization (doc_fetcher.py) -/

/-- One element of an attachment-type field value (a list in Python).
`extract_img_keys` only looks at whether the element is a dict and whether
it carries a `"file_token"` entry. -/
inductive ImgItem
  | dictWithToken (file_token : String)
  | dictNoToken
  | notDict
deriving DecidableEq

/-- A raw value in a bitable record's `fields` map: a string, a number
(Python `int`/`float`, modelled as an exact rational), a hyperlink dict
with `url`/`text` entries (an absent entry is modelled as `""`, matching
`.get(..., "")`), or an attachment list. -/
inductive FieldVal
  | str (s : String)
  | num (q : ℚ)
  | link (url text : String)
  | attach (items : List ImgItem)
deriving DecidableEq

/-- Python truthiness of a field value: `""`, `0` and `[]` are falsy.  A
hyperlink dict is modelled as truthy (the source only reads dicts that came
from the bitable API carrying at least one entry). -/
def FieldVal.truthy : FieldVal → Bool
  | .str s => s ≠ ""
  | .num q => q ≠ 0
  | .link _ _ => true
  | .attach items => items ≠ []

/-- Python `fields.get(k, dflt)` over the record's `fields` dict, modelled
as an association list with unique keys. -/
def fieldGet (fields : List (String × FieldVal)) (k : String)
    (dflt : FieldVal) : FieldVal :=
  match fields.lookup k with
  | some v => v
  | none => dflt

/-- Result of `extract_img_keys`: the returned `img_keys` list plus, for the
no-network-call observability the spec talks about, the list of tokens that
were handed to `get_image_key` (each such call is one download/upload
round trip). -/
structure ExtractResult where
  keys : List String
  calls : List String
deriving DecidableEq

/-- The attachment-list branch of `extract_img_keys` (doc_fetcher.py lines
304-330): a dict item with a `file_token` beginning with `"img_"` is passed
through; otherwise `get_image_key` is attempted and a raised exception is
caught (`continue`), dropping that image.  The best-effort
`update_bitable_record` write-back returns a `bool` that the source
discards, so it does not appear in the model. -/
def extract_attachment_keys (resolver : String → Option String) :
    List ImgItem → ExtractResult
  | [] => ⟨[], []⟩
  | ImgItem.dictWithToken ft :: rest =>
    let r := extract_attachment_keys resolver rest
    if startsWithImg ft then ⟨ft :: r.keys, r.calls⟩
    else
      match resolver ft with
      | some k => ⟨k :: r.keys, ft :: r.calls⟩
      | none => ⟨r.keys, ft :: r.calls⟩
  | _ :: rest => extract_attachment_keys resolver rest

/-- `extract_img_keys` (doc_fetcher.py lines 287-350).  `resolver` models
`get_image_key` (`none` = the two-step download/upload raised).  A falsy or
non-list/non-string field yields no keys and no calls. -/
def extract_img_keys (resolver : String → Option String) :
    FieldVal → ExtractResult
  | .attach items => extract_attachment_keys resolver items
  | .str s =>
    if s = "" then ⟨[], []⟩
    else if startsWithImg s then ⟨[s], []⟩
    else
      match resolver s with
      | some k => ⟨[k], [s]⟩
      | none => ⟨[], [s]⟩
  | _ => ⟨[], []⟩

/-- One entry of a digest item's `pictures` list: `{"img_key": k,
"i18n_img_key": {"zh_cn": k}}`. -/
structure Picture where
  img_key : String
  i18n_img_key : List (String × String)
deriving DecidableEq

/-- `build_pictures_list` (doc_fetcher.py lines 353-379): flatten the keys
extracted from each image field into picture entries. -/
def build_pictures_list (resolver : String → Option String) :
    List FieldVal → List Picture
  | [] => []
  | f :: rest =>
    ((extract_img_keys resolver f).keys.map
      (fun k => ⟨k, [("zh_cn", k)]⟩)) ++ build_pictures_list resolver rest

/-- The `url` sub-dict of a digest item. -/
structure Url4 where
  pc_url : String
  android_url : String
  ios_url : String
  url : String
deriving DecidableEq

/-- A normalized digest item.  `name` keeps the raw field value (the source
stores whatever `fields.get` returned; the spreadsheet variant always
yields a string). -/
structure Item where
  name : FieldVal
  desc : String
  pictures : List Picture
  url : Url4
deriving DecidableEq

/-- Description normalization (doc_fetcher.py lines 416-421 and 538-543):
guarded by `if desc:`, first `desc.replace('\\n', '\n')` (the two-character
escape becomes a real newline), then `desc.replace('\n', '<br>')`. -/
def normalize_desc (desc : String) : String :=
  if desc = "" then desc
  else pyReplace (pyReplace desc "\\n" "\n") "\n" "<br>"

/-- One data row of the spreadsheet variant (doc_fetcher.py lines 402-436):
rows with fewer than 5 columns are skipped, columns map positionally to
name/desc/img_key1/img_key2/url (`row[i] if row[i] else ""` is the identity
on string cells), and no name or time check is performed. -/
def parse_sheet_row (resolver : String → Option String)
    (row : List String) : Option Item :=
  if row.length < 5 then none
  else
    let name := row.getD 0 ""
    let desc := row.getD 1 ""
    let img_key1 := row.getD 2 ""
    let img_key2 := row.getD 3 ""
    let url := row.getD 4 ""
    let pictures := build_pictures_list resolver [.str img_key1, .str img_key2]
    some ⟨.str name, normalize_desc desc, pictures, ⟨"", "", "", url⟩⟩

/-- One record of the bitable (table-record) variant: its `record_id` (used
by the source only for the best-effort write-back, which the model omits)
and its `fields` map. -/
structure BitRecord where
  record_id : String
  fields : List (String × FieldVal)
deriving DecidableEq

/-- One record of the bitable variant (doc_fetcher.py lines 442-558).
`parseTimeStr` models the `datetime.strptime` format chain of lines
485-493 (the `'T'`-split plus the four formats, each `ValueError` caught;
`none` = no format matched); `now` models `datetime.datetime.now()`.
The numeric branch (lines 494-501) is modelled exactly:
seconds if the value is at most `1e12`, milliseconds otherwise
(`datetime.fromtimestamp` range errors, caught by the enclosing `except`
which keeps the record, are outside the values any claim exercises).
`str()` of a non-string, non-dict url field is not modelled (rendered as
`""`); no claim exercises it.  A non-string desc field raises
`AttributeError` in the source; the model renders it as `""` and no claim
exercises it. -/
def parse_bitable_record (resolver : String → Option String)
    (parseTimeStr : String → Option ℚ) (now : ℚ)
    (record : BitRecord) : Option Item :=
  let fields := record.fields
  let name := fieldGet fields "名称" (fieldGet fields "name" (.str ""))
  let descF := fieldGet fields "描述" (fieldGet fields "desc" (.str ""))
  let url_field := fieldGet fields "URL" (fieldGet fields "url"
    (fieldGet fields "链接" (fieldGet fields "link" (.str ""))))
  let time_str := fieldGet fields "Time" (fieldGet fields "time" (.str ""))
  let url : String :=
    match url_field with
    | .link u _ => u
    | v =>
      let s := match v with
        | .str s => s
        | _ => ""
      if s = "AI-周报" then "" else s
  if name.truthy = false then none
  else
    let record_time : Option ℚ :=
      if time_str.truthy then
        match time_str with
        | .str s => parseTimeStr s
        | .num q => some (if q > 10 ^ 12 then q / 1000 else q)
        | _ => none
      else none
    let keep : Bool :=
      match record_time with
      | some t => ¬ (t < now - WEEKLY_REPORT_FILTER_DAYS * 86400)
      | none => true
    if keep = false then none
    else
      let img_key1 := fieldGet fields "image_key1" (.str "")
      let img_key2 := fieldGet fields "image_key2" (.str "")
      let img_field1 :=
        if img_key1.truthy = false then
          fieldGet fields "image1" (fieldGet fields "图片1"
            (fieldGet fields "image" (fieldGet fields "附件"
              (fieldGet fields "attachment1" (.str "")))))
        else .str ""
      let img_field2 :=
        if img_key2.truthy = false then
          fieldGet fields "image2" (fieldGet fields "图片2"
            (fieldGet fields "附件2" (fieldGet fields "attachment2" (.str ""))))
        else .str ""
      let pictures := build_pictures_list resolver
        [if img_key1.truthy then img_key1 else img_field1,
         if img_key2.truthy then img_key2 else img_field2]
      let desc := normalize_desc
        (match descF with
         | .str s => s
         | _ => "")
      some ⟨name, desc, pictures, ⟨url, url, url, url⟩⟩

/-- The shape of the fetched payload that `parse_sheet_data` dispatches on:
`data.valueRange.values` (spreadsheet), `data.items` (bitable), or
neither. -/
inductive SheetData
  | sheet (rows : List (List String))
  | bitable (records : List BitRecord)
  | other
deriving DecidableEq

/-- `parse_sheet_data` (doc_fetcher.py lines 382-560): skip the header row
of the spreadsheet variant (`rows[1:]`), process each row or record,
`continue` on a skipped one, append the built item otherwise. -/
def parse_sheet_data (resolver : String → Option String)
    (parseTimeStr : String → Option ℚ) (now : ℚ) :
    SheetData → List Item
  | .sheet rows => (rows.drop 1).filterMap (parse_sheet_row resolver)
  | .bitable records =>
    records.filterMap (parse_bitable_record resolver parseTimeStr now)
  | .other => []

/-! ### Recursive reformulations of the two description rewrites

`pyReplace` with the concrete patterns of `normalize_desc` is proved equal
to the following structurally recursive functions, which the newline
round-trip proof inducts over. -/

/-- `s.replace('\\n', '\n')` as a structural recursion: the leftmost
backslash-n pair becomes a newline and scanning resumes after it. -/
def unescapeNl : List Char → List Char
  | [] => []
  | [c] => [c]
  | c1 :: c2 :: t =>
    if c1 = '\\' ∧ c2 = 'n' then '\n' :: unescapeNl t
    else c1 :: unescapeNl (c2 :: t)

/-- `s.replace('\n', '<br>')` as a structural recursion. -/
def brify : List Char → List Char
  | [] => []
  | c :: t =>
    if c = '\n' then '<' :: 'b' :: 'r' :: '>' :: brify t
    else c :: brify t

/-- The spec-side transform pairing a string with its "pre-escaped"
equivalent: every real newline is written as the two-character escape
backslash-n.  Used only to state the round-trip claim. -/
def escNl : List Char → List Char
  | [] => []
  | c :: t =>
    if c = '\n' then '\\' :: 'n' :: escNl t
    else c :: escNl t

/-! ### Helper lemmas -/

theorem replFuel_eq_unescapeNl : ∀ (n : Nat) (l : List Char),
    l.length ≤ n → replFuel ['\\', 'n'] ['\n'] n l = unescapeNl l := by
  intro n
  induction n with
  | zero =>
    intro l hl
    have : l = [] := List.eq_nil_of_length_eq_zero (Nat.le_zero.mp hl)
    subst this
    rfl
  | succ n ih =>
    intro l hl
    match l with
    | [] => rfl
    | [c] =>
      simp [replFuel, headMatches, unescapeNl]
      cases n <;> rfl
    | c1 :: c2 :: t =>
      have ht : t.length ≤ n := by
        simp only [List.length_cons] at hl
        omega
      have ht2 : (c2 :: t).length ≤ n := by
        simp only [List.length_cons] at hl ⊢
        omega
      by_cases h1 : c1 = '\\'
      · by_cases h2 : c2 = 'n'
        · subst h1; subst h2
          simp [replFuel, headMatches, unescapeNl, ih t ht]
        · simp [replFuel, headMatches, unescapeNl, h1, h2, Ne.symm h2,
            ih _ ht2]
      · simp [replFuel, headMatches, unescapeNl, h1, Ne.symm h1, ih _ ht2]

theorem replFuel_eq_brify : ∀ (n : Nat) (l : List Char),
    l.length ≤ n → replFuel ['\n'] ['<', 'b', 'r', '>'] n l = brify l := by
  intro n
  induction n with
  | zero =>
    intro l hl
    have : l = [] := List.eq_nil_of_length_eq_zero (Nat.le_zero.mp hl)
    subst this
    rfl
  | succ n ih =>
    intro l hl
    match l with
    | [] => rfl
    | c :: t =>
      have ht : t.length ≤ n := by
        simp only [List.length_cons] at hl
        omega
      by_cases hc : c = '\n'
      · subst hc
        simp [replFuel, headMatches, brify, ih t ht]
      · simp [replFuel, headMatches, brify, hc, Ne.symm hc, ih t ht]

theorem pyReplace_unescape (s : String) :
    pyReplace s "\\n" "\n" = String.mk (unescapeNl s.toList) := by
  have hpat : ("\\n" : String).toList = ['\\', 'n'] := rfl
  have hrep : ("\n" : String).toList = ['\n'] := rfl
  unfold pyReplace
  rw [if_neg (by decide), hpat, hrep,
    replFuel_eq_unescapeNl _ _ (le_refl _)]

theorem pyReplace_brify (s : String) :
    pyReplace s "\n" "<br>" = String.mk (brify s.toList) := by
  have hpat : ("\n" : String).toList = ['\n'] := rfl
  have hrep : ("<br>" : String).toList = ['<', 'b', 'r', '>'] := rfl
  unfold pyReplace
  rw [if_neg (by decide), hpat, hrep, replFuel_eq_brify _ _ (le_refl _)]

theorem normalize_desc_eq (s : String) :
    normalize_desc s = String.mk (brify (unescapeNl s.toList)) := by
  unfold normalize_desc
  by_cases hs : s = ""
  · subst hs
    rfl
  · rw [if_neg hs, pyReplace_unescape, pyReplace_brify]
    rfl

theorem unescapeNl_cons_of_ne {c : Char} (t : List Char) (hc : c ≠ '\\') :
    unescapeNl (c :: t) = c :: unescapeNl t := by
  cases t with
  | nil => rfl
  | cons d t' => simp [unescapeNl, hc]

theorem unescapeNl_bs_n (t : List Char) :
    unescapeNl ('\\' :: 'n' :: t) = '\n' :: unescapeNl t := by
  simp [unescapeNl]

theorem unescapeNl_bs_cons_of_ne {c : Char} (t : List Char) (hc : c ≠ 'n') :
    unescapeNl ('\\' :: c :: t) = '\\' :: unescapeNl (c :: t) := by
  simp [unescapeNl, hc]

theorem unescapeNl_escNl (l : List Char) :
    unescapeNl (escNl l) = unescapeNl l := by
  have key : ∀ (n : Nat) (l : List Char), l.length ≤ n →
      unescapeNl (escNl l) = unescapeNl l := by
    intro n
    induction n with
    | zero =>
      intro l hl
      have : l = [] := List.eq_nil_of_length_eq_zero (Nat.le_zero.mp hl)
      subst this
      rfl
    | succ n ih =>
      intro l hl
      match l with
      | [] => rfl
      | c :: t =>
        have ht : t.length ≤ n := by
          simp only [List.length_cons] at hl
          omega
        by_cases hc : c = '\n'
        · subst hc
          rw [show escNl ('\n' :: t) = '\\' :: 'n' :: escNl t by
              simp [escNl],
            unescapeNl_bs_n, ih t ht,
            unescapeNl_cons_of_ne t (by decide)]
        · by_cases hbs : c = '\\'
          · subst hbs
            rw [show escNl ('\\' :: t) = '\\' :: escNl t by simp [escNl]]
            match t with
            | [] => rfl
            | d :: t2 =>
              have ht2 : t2.length ≤ n := by
                simp only [List.length_cons] at hl
                omega
              by_cases hd : d = '\n'
              · subst hd
                rw [show escNl ('\n' :: t2) = '\\' :: 'n' :: escNl t2 by
                    simp [escNl],
                  unescapeNl_bs_cons_of_ne _ (by decide),
                  unescapeNl_bs_n, ih t2 ht2,
                  unescapeNl_bs_cons_of_ne _ (by decide),
                  unescapeNl_cons_of_ne t2 (by decide)]
              · by_cases hdn : d = 'n'
                · subst hdn
                  rw [show escNl ('n' :: t2) = 'n' :: escNl t2 by
                      simp [escNl],
                    unescapeNl_bs_n, ih t2 ht2, unescapeNl_bs_n]
                · rw [show escNl (d :: t2) = d :: escNl t2 by
                      simp [escNl, hd],
                    unescapeNl_bs_cons_of_ne _ hdn]
                  rw [show (d :: escNl t2) = escNl (d :: t2) by
                      simp [escNl, hd],
                    ih (d :: t2) ht,
                    unescapeNl_bs_cons_of_ne _ hdn]
          · rw [show escNl (c :: t) = c :: escNl t by simp [escNl, hc],
              unescapeNl_cons_of_ne _ hbs, ih t ht,
              unescapeNl_cons_of_ne _ hbs]
  exact key l.length l (le_refl _)

/-! ### Claim theorems -/

/-- C7: description normalization first rewrites the literal two-character
escape backslash-n to a newline, then newlines to `<br>`, so an input
carrying the escaped form and an input carrying the real newline form
normalize to the same output, each newline producing exactly one `<br>`
marker. -/
theorem C7_newline_normalization :
    (∀ s : String,
        normalize_desc (String.mk (escNl s.toList)) = normalize_desc s)
    ∧ normalize_desc "a\\nb" = "a<br>b"
    ∧ normalize_desc "a\nb" = "a<br>b"
    ∧ normalize_desc "a\n\nb" = "a<br><br>b" := by
  refine ⟨fun s => ?_, by decide, by decide, by decide⟩
  rw [normalize_desc_eq, normalize_desc_eq]
  show String.mk (brify (unescapeNl (escNl s.toList))) = _
  rw [unescapeNl_escNl]

/-- C1, counterexample: an admitted event (group chat, bot mentioned,
non-empty query) whose reply send raises ends with the outer `except`
swallowing the exception — the ledger is left untouched, so the event id is
NOT committed after the failed reply attempt, contradicting the claim. -/
theorem C1_counterexample :
    do_p2_im_message_receive_v1 (fun _ => "ans") (fun _ => false) 0
      ⟨"m1", "group", .dict (some "  @Bot hello"), [⟨"CSM-AI", "@Bot"⟩]⟩ 0
      ⟨[], []⟩ = (⟨[], []⟩, Outcome.errored) := by decide

/-- C1, amended: for every admitted event the id is committed only after a
successful reply — a run ending in the caught-exception outcome leaves the
ledger unchanged (the failed reply is not retried and the id is not
recorded), while a run ending in a sent reply commits the id. -/
theorem C1_commit_only_on_successful_reply (llm : String → String)
    (replyOk : String → Bool) (now : Int) (msg : InMessage)
    (message_time : Int) (st : Ledger) :
    (∀ st', do_p2_im_message_receive_v1 llm replyOk now msg message_time st
        = (st', Outcome.errored) → st' = st)
    ∧ (∀ st' q r,
        do_p2_im_message_receive_v1 llm replyOk now msg message_time st
          = (st', Outcome.replied q r) →
        st' = mark_message_processed st msg.message_id) := by
  constructor
  · intro st' h
    unfold do_p2_im_message_receive_v1 at h
    dsimp only at h
    repeat' split at h
    all_goals simp_all
  · intro st' q r h
    unfold do_p2_im_message_receive_v1 at h
    dsimp only at h
    repeat' split at h
    all_goals simp_all

/-- C1, witness for the amended theorem: an admitted event whose reply
succeeds commits the id; one whose reply raises leaves the ledger as it
was. -/
theorem C1_commit_only_on_successful_reply_witness :
    (⟨["m1"], ["m1"]⟩ : Ledger)
      = mark_message_processed ⟨[], []⟩ "m1"
    ∧ (⟨[], []⟩ : Ledger) = (⟨[], []⟩ : Ledger) := by
  constructor
  · exact ((C1_commit_only_on_successful_reply (fun _ => "ans")
      (fun _ => true) 0
      ⟨"m1", "group", .dict (some "  @Bot hello"), [⟨"CSM-AI", "@Bot"⟩]⟩ 0
      ⟨[], []⟩).2 ⟨["m1"], ["m1"]⟩ "hello" "ans" (by decide)).symm
  · exact (C1_commit_only_on_successful_reply (fun _ => "ans")
      (fun _ => false) 0
      ⟨"m1", "group", .dict (some "  @Bot hello"), [⟨"CSM-AI", "@Bot"⟩]⟩ 0
      ⟨[], []⟩).1 ⟨[], []⟩ (by decide)

/-- C2: handling an event whose id is already in the ledger returns
admission `false` and leaves the in-memory set unchanged, but — because the
handler calls `mark_message_processed` unconditionally on the invalid path,
against its own comment ("if the message is invalid and not yet marked
processed, mark it") — the id is appended to the persisted log a second
time, so the persisted ledger IS modified. -/
theorem C2_duplicate_event_reappends_log :
    do_p2_im_message_receive_v1 (fun _ => "ans") (fun _ => true) 0
      ⟨"m1", "group", .dict (some "  @Bot hello"), [⟨"CSM-AI", "@Bot"⟩]⟩ 0
      ⟨["m1"], ["m1"]⟩ = (⟨["m1"], ["m1", "m1"]⟩, Outcome.invalid)
    ∧ is_message_valid ⟨["m1"], ["m1"]⟩ 0 "m1" 0 = false := by decide

/-- C5, counterexample: an event that is BOTH too old (age 1000s > 300s)
and a duplicate is rejected by the membership branch, not the age branch —
the admission filter checks the ledger first, so the rejection reason for a
too-old duplicate is duplication, contradicting the claimed
age-before-membership ordering. -/
theorem C5_counterexample :
    admissionReject ⟨["m1"], ["m1"]⟩ 1000 "m1" 0
        = some AdmissionReason.duplicate
    ∧ (1000 : Int) - 0 > MAX_MESSAGE_AGE
    ∧ some AdmissionReason.duplicate ≠ some AdmissionReason.tooOld := by
  decide

/-- C5, amended: the admission filter evaluates the ledger membership check
BEFORE the age check: a duplicate is rejected as a duplicate regardless of
age, a non-duplicate older than `MAX_MESSAGE_AGE` is rejected as too old,
`is_message_valid` accepts exactly when neither rejection fires, and any
event rejected by the filter has its id committed by the handler. -/
theorem C5_membership_checked_before_age (st : Ledger) (now : Int)
    (id : String) (t : Int) :
    (st.mem.contains id = true →
      admissionReject st now id t = some AdmissionReason.duplicate)
    ∧ (st.mem.contains id = false → now - t > MAX_MESSAGE_AGE →
      admissionReject st now id t = some AdmissionReason.tooOld)
    ∧ is_message_valid st now id t = (admissionReject st now id t).isNone
    ∧ (∀ llm replyOk msg st',
        do_p2_im_message_receive_v1 llm replyOk now msg t st
          = (st', Outcome.invalid) →
        st' = mark_message_processed st msg.message_id) := by
  refine ⟨fun hmem => ?_, fun hmem hage => ?_, ?_, ?_⟩
  · have hm : id ∈ st.mem := by simpa using hmem
    simp [admissionReject, hm]
  · have hm : id ∉ st.mem := by simpa using hmem
    simp [admissionReject, hm, hage]
  · by_cases hm : id ∈ st.mem <;>
      by_cases hage : now - t > MAX_MESSAGE_AGE <;>
      simp [is_message_valid, admissionReject, hm, hage]
  · intro llm replyOk msg st' h
    unfold do_p2_im_message_receive_v1 at h
    dsimp only at h
    repeat' split at h
    all_goals simp_all

/-- C5, witness for the amended theorem, at a too-old duplicate, a fresh
too-old event, an admissible event, and a rejected (duplicate) event run
through the handler. -/
theorem C5_membership_checked_before_age_witness :
    admissionReject ⟨["m1"], ["m1"]⟩ 1000 "m1" 0
        = some AdmissionReason.duplicate
    ∧ admissionReject ⟨["m1"], ["m1"]⟩ 1000 "m2" 0
        = some AdmissionReason.tooOld
    ∧ is_message_valid ⟨["m1"], ["m1"]⟩ 1000 "m2" 900
        = (admissionReject ⟨["m1"], ["m1"]⟩ 1000 "m2" 900).isNone
    ∧ (⟨["m1"], ["m1", "m1"]⟩ : Ledger)
        = mark_message_processed ⟨["m1"], ["m1"]⟩ "m1" := by
  refine ⟨(C5_membership_checked_before_age ⟨["m1"], ["m1"]⟩ 1000 "m1" 0).1
      (by decide),
    (C5_membership_checked_before_age ⟨["m1"], ["m1"]⟩ 1000 "m2" 0).2.1
      (by decide) (by decide),
    (C5_membership_checked_before_age ⟨["m1"], ["m1"]⟩ 1000 "m2" 900).2.2.1,
    (C5_membership_checked_before_age ⟨["m1"], ["m1"]⟩ 1000 "m1" 0).2.2.2
      (fun _ => "ans") (fun _ => true)
      ⟨"m1", "group", .dict (some "hi"), []⟩ ⟨["m1"], ["m1", "m1"]⟩
      (by decide)⟩

/-- C8, counterexample: an event admitted through the bot-name substring
path (no mentions) forwards its text content verbatim — the forwarded query
" CSM-AI hi " keeps its surrounding whitespace, contradicting the claim
that every admitted event's query is trimmed. -/
theorem C8_counterexample :
    (do_p2_im_message_receive_v1 (fun _ => "ans") (fun _ => true) 0
        ⟨"m1", "group", .dict (some " CSM-AI hi "), []⟩ 0 ⟨[], []⟩).2
      = Outcome.replied " CSM-AI hi " "ans"
    ∧ pyStrip " CSM-AI hi " ≠ " CSM-AI hi " := by decide

/-- C8, amended: when the admitted event has mentions (and a dict content
with a text entry), each mention's non-empty key is removed by substring
replacement in mention-list order with whitespace stripped after each
removal — so text "  @Bot hello" with mention key "@Bot" forwards the query
"hello" — while an event admitted without mentions forwards its text
content unmodified (untrimmed); and an event whose query is empty after
cleaning is rejected with its id committed and the answer generator never
consulted (the run is identical under any generator and reply oracle). -/
theorem C8_query_cleaning :
    do_p2_im_message_receive_v1 (fun _ => "ans") (fun _ => true) 0
        ⟨"m1", "group", .dict (some "  @Bot hello"), [⟨"CSM-AI", "@Bot"⟩]⟩ 0
        ⟨[], []⟩ = (⟨["m1"], ["m1"]⟩, Outcome.replied "hello" "ans")
    ∧ (∀ (llm llm' : String → String) (replyOk replyOk' : String → Bool)
        (now : Int) (msg : InMessage) (t : Int) (st : Ledger),
        (do_p2_im_message_receive_v1 llm replyOk now msg t st).2
          = Outcome.emptyQuery →
        do_p2_im_message_receive_v1 llm replyOk now msg t st
          = (mark_message_processed st msg.message_id, Outcome.emptyQuery)
        ∧ do_p2_im_message_receive_v1 llm' replyOk' now msg t st
          = (mark_message_processed st msg.message_id, Outcome.emptyQuery))
    ∧ (∀ (llm : String → String) (replyOk : String → Bool) (now : Int)
        (msg : InMessage) (t : Int) (st : Ledger) (q r : String),
        msg.mentions = [] →
        (do_p2_im_message_receive_v1 llm replyOk now msg t st).2
          = Outcome.replied q r →
        q = text_content_of msg.content) := by
  refine ⟨by decide, ?_, ?_⟩
  · intro llm llm' replyOk replyOk' now msg t st h
    unfold do_p2_im_message_receive_v1 at h ⊢
    dsimp only at h ⊢
    repeat' split at h
    all_goals simp_all
  · intro llm replyOk now msg t st q r hm h
    unfold do_p2_im_message_receive_v1 at h
    dsimp only at h
    repeat' split at h
    all_goals simp_all

/-- C8, witness for the amended theorem: a message reduced to the empty
query is rejected with its id committed under an arbitrary pair of oracles,
and a mention-free admitted message forwards its text content as the
query. -/
theorem C8_query_cleaning_witness :
    do_p2_im_message_receive_v1 (fun _ => "x") (fun _ => false) 0
        ⟨"m1", "group", .dict (some "@Bot"), [⟨"CSM-AI", "@Bot"⟩]⟩ 0 ⟨[], []⟩
      = (mark_message_processed ⟨[], []⟩ "m1", Outcome.emptyQuery)
    ∧ " CSM-AI hi "
      = text_content_of (MsgContent.dict (some " CSM-AI hi ")) := by
  refine ⟨(C8_query_cleaning.2.1 (fun _ => "x") (fun _ => "x")
      (fun _ => false) (fun _ => false) 0
      ⟨"m1", "group", .dict (some "@Bot"), [⟨"CSM-AI", "@Bot"⟩]⟩ 0 ⟨[], []⟩
      (by decide)).1,
    C8_query_cleaning.2.2 (fun _ => "ans") (fun _ => true) 0
      ⟨"m1", "group", .dict (some " CSM-AI hi "), []⟩ 0 ⟨[], []⟩
      " CSM-AI hi " "ans" (by decide) (by decide)⟩

theorem parse_bitable_record_name_truthy {resolver : String → Option String}
    {parseTimeStr : String → Option ℚ} {now : ℚ} {record : BitRecord}
    {item : Item}
    (h : parse_bitable_record resolver parseTimeStr now record = some item) :
    item.name.truthy = true := by
  unfold parse_bitable_record at h
  dsimp only at h
  repeat' split at h
  all_goals try exact Option.noConfusion h
  all_goals obtain rfl := Option.some.inj h
  all_goals simp_all

/-- C3, counterexample: the spreadsheet variant performs no name check — a
data row whose first column is empty still yields a digest item, and that
item's name is the empty string, contradicting the claim that every
produced item has a non-empty name. -/
theorem C3_counterexample :
    (parse_sheet_data (fun _ => none) (fun _ => none) 0
        (SheetData.sheet [[], ["", "d", "", "", "u"]])).map Item.name
      = [FieldVal.str ""] := by decide

/-- C3, amended: only the table-record (bitable) variant drops records
whose name field resolves falsy, so every item it produces has a truthy
name; the spreadsheet variant keeps rows with empty names. -/
theorem C3_bitable_name_nonempty (resolver : String → Option String)
    (parseTimeStr : String → Option ℚ) (now : ℚ)
    (records : List BitRecord) (item : Item)
    (h : item ∈ parse_sheet_data resolver parseTimeStr now
      (SheetData.bitable records)) :
    item.name.truthy = true := by
  simp only [parse_sheet_data, List.mem_filterMap] at h
  obtain ⟨r, _, hr⟩ := h
  exact parse_bitable_record_name_truthy hr

/-- C3, witness for the amended theorem at a one-record bitable payload. -/
theorem C3_bitable_name_nonempty_witness :
    (FieldVal.str "x").truthy = true :=
  C3_bitable_name_nonempty (fun _ => none) (fun _ => none) 0
    [⟨"r1", [("名称", .str "x")]⟩]
    ⟨.str "x", "", [], ⟨"", "", "", ""⟩⟩ (by decide)

/-- C4, counterexample: a table record whose link field is a rich-link
object with display text exactly "AI-周报" keeps its url — the produced
item's url variants equal the object's url, not the empty string, so the
placeholder is NOT treated as absent in the rich-link case. -/
theorem C4_counterexample :
    (parse_sheet_data (fun _ => none) (fun _ => none) 0
        (SheetData.bitable [⟨"r1", [("名称", .str "x"),
          ("URL", .link "http://x" "AI-周报")]⟩])).map (fun i => i.url.url)
      = ["http://x"]
    ∧ ("http://x" : String) ≠ "" := by decide

set_option maxHeartbeats 1000000 in
/-- C4, amended: the "AI-周报" placeholder check applies only when the link
field resolves to a plain string — a plain string "AI-周报" yields empty
url variants, while a rich-link object passes its url through whatever its
display text is (in particular when the display text is "AI-周报"). -/
theorem C4_placeholder_only_for_plain_string
    (resolver : String → Option String)
    (parseTimeStr : String → Option ℚ) (now : ℚ) (rid nm u tx : String)
    (hnm : nm ≠ "") :
    parse_bitable_record resolver parseTimeStr now
        ⟨rid, [("名称", .str nm), ("URL", .str "AI-周报")]⟩
      = some ⟨.str nm, "", [], ⟨"", "", "", ""⟩⟩
    ∧ parse_bitable_record resolver parseTimeStr now
        ⟨rid, [("名称", .str nm), ("URL", .link u tx)]⟩
      = some ⟨.str nm, "", [], ⟨u, u, u, u⟩⟩ := by
  constructor <;>
    simp +decide [parse_bitable_record, fieldGet, List.lookup,
      FieldVal.truthy, hnm, build_pictures_list, extract_img_keys,
      normalize_desc]

/-- C4, witness for the amended theorem. -/
theorem C4_placeholder_only_for_plain_string_witness :
    parse_bitable_record (fun _ => none) (fun _ => none) 0
        ⟨"r1", [("名称", .str "x"), ("URL", .str "AI-周报")]⟩
      = some ⟨.str "x", "", [], ⟨"", "", "", ""⟩⟩
    ∧ parse_bitable_record (fun _ => none) (fun _ => none) 0
        ⟨"r1", [("名称", .str "x"), ("URL", .link "http://x" "AI-周报")]⟩
      = some ⟨.str "x", "", [], ⟨"http://x", "http://x", "http://x",
          "http://x"⟩⟩ :=
  C4_placeholder_only_for_plain_string (fun _ => none) (fun _ => none) 0
    "r1" "x" "http://x" "AI-周报" (by decide)

set_option maxHeartbeats 1600000 in
/-- C6: in the table-record variant, a record whose parsed time equals the
window boundary (`now` minus `WEEKLY_REPORT_FILTER_DAYS` days) is kept
(inclusive boundary), one strictly older is dropped, one whose time field
is absent or unparsable is kept, and a numeric time value is read as epoch
seconds when at most `1e12` and as milliseconds otherwise. -/
theorem C6_time_window (resolver : String → Option String)
    (parseTimeStr : String → Option ℚ) (now : ℚ) (rid nm s : String)
    (t q : ℚ) (hnm : nm ≠ "") :
    (parseTimeStr s = some (now - WEEKLY_REPORT_FILTER_DAYS * 86400) →
      parse_bitable_record resolver parseTimeStr now
        ⟨rid, [("名称", .str nm), ("Time", .str s)]⟩
        = some ⟨.str nm, "", [], ⟨"", "", "", ""⟩⟩)
    ∧ (parseTimeStr s = some t →
        t < now - WEEKLY_REPORT_FILTER_DAYS * 86400 → s ≠ "" →
      parse_bitable_record resolver parseTimeStr now
        ⟨rid, [("名称", .str nm), ("Time", .str s)]⟩ = none)
    ∧ (parse_bitable_record resolver parseTimeStr now
        ⟨rid, [("名称", .str nm)]⟩
        = some ⟨.str nm, "", [], ⟨"", "", "", ""⟩⟩)
    ∧ (parseTimeStr s = none →
      parse_bitable_record resolver parseTimeStr now
        ⟨rid, [("名称", .str nm), ("Time", .str s)]⟩
        = some ⟨.str nm, "", [], ⟨"", "", "", ""⟩⟩)
    ∧ (q ≠ 0 →
      (parse_bitable_record resolver parseTimeStr now
          ⟨rid, [("名称", .str nm), ("Time", .num q)]⟩ = none
        ↔ (if q > 10 ^ 12 then q / 1000 else q)
            < now - WEEKLY_REPORT_FILTER_DAYS * 86400)) := by
  refine ⟨fun hp => ?_, fun hp hlt hs => ?_, ?_, fun hp => ?_, fun hq => ?_⟩
  · by_cases hs : s = "" <;>
      simp +decide [parse_bitable_record, fieldGet, List.lookup,
        FieldVal.truthy, hnm, hs, hp, build_pictures_list, extract_img_keys,
        normalize_desc]
  · simp +decide [parse_bitable_record, fieldGet, List.lookup,
      FieldVal.truthy, hnm, hs, hp, hlt, build_pictures_list,
      extract_img_keys, normalize_desc]
  · simp +decide [parse_bitable_record, fieldGet, List.lookup,
      FieldVal.truthy, hnm, build_pictures_list, extract_img_keys,
      normalize_desc]
  · by_cases hs : s = "" <;>
      simp +decide [parse_bitable_record, fieldGet, List.lookup,
        FieldVal.truthy, hnm, hs, hp, build_pictures_list, extract_img_keys,
        normalize_desc]
  · simp +decide [parse_bitable_record, fieldGet, List.lookup,
      FieldVal.truthy, hnm, hq, build_pictures_list, extract_img_keys,
      normalize_desc]
    exact lt_sub_iff_add_lt.symm

/-- C6, witness: a record timestamped exactly at the window boundary is
kept, a strictly older one is dropped, an unparsable time is kept, and a
millisecond-scale numeric time is divided by 1000 before the window
comparison. -/
theorem C6_time_window_witness :
    parse_bitable_record (fun _ => none)
        (fun _ => some (1000000 - WEEKLY_REPORT_FILTER_DAYS * 86400)) 1000000
        ⟨"r1", [("名称", .str "x"), ("Time", .str "2025-01-01")]⟩
      = some ⟨.str "x", "", [], ⟨"", "", "", ""⟩⟩
    ∧ parse_bitable_record (fun _ => none) (fun _ => some 0) 1000000
        ⟨"r1", [("名称", .str "x"), ("Time", .str "2018-01-01")]⟩ = none
    ∧ parse_bitable_record (fun _ => none) (fun _ => none) 1000000
        ⟨"r1", [("名称", .str "x"), ("Time", .str "nonsense")]⟩
      = some ⟨.str "x", "", [], ⟨"", "", "", ""⟩⟩
    ∧ (parse_bitable_record (fun _ => none) (fun _ => none) 1000000
          ⟨"r1", [("名称", .str "x"), ("Time", .num (2 * 10 ^ 12))]⟩ = none
        ↔ (if (2 * 10 ^ 12 : ℚ) > 10 ^ 12 then (2 * 10 ^ 12 : ℚ) / 1000
            else 2 * 10 ^ 12)
          < 1000000 - WEEKLY_REPORT_FILTER_DAYS * 86400) :=
  ⟨(C6_time_window (fun _ => none)
      (fun _ => some (1000000 - WEEKLY_REPORT_FILTER_DAYS * 86400)) 1000000
      "r1" "x" "2025-01-01" 0 0 (by decide)).1 rfl,
   (C6_time_window (fun _ => none) (fun _ => some 0) 1000000
      "r1" "x" "2018-01-01" 0 0 (by decide)).2.1 rfl
      (by norm_num [WEEKLY_REPORT_FILTER_DAYS]) (by decide),
   (C6_time_window (fun _ => none) (fun _ => none) 1000000
      "r1" "x" "nonsense" 0 0 (by decide)).2.2.2.1 rfl,
   (C6_time_window (fun _ => none) (fun _ => none) 1000000
      "r1" "x" "" 0 (2 * 10 ^ 12) (by decide)).2.2.2.2 (by norm_num)⟩

/-- C9: image resolution is total and drop-not-fail — a reference already
in platform-key form (string or `file_token` beginning with "img_") passes
through unchanged with no resolver call, an empty reference yields no
image, a reference whose download/upload fails is dropped without failing
the record (the extractor is a total function), and a record with one
resolvable and one permanently-failing reference yields exactly one
picture. -/
theorem C9_image_resolution (resolver : String → Option String)
    (s ft tok1 tok2 k : String) :
    (startsWithImg s = true →
      extract_img_keys resolver (.str s) = ⟨[s], []⟩)
    ∧ (startsWithImg ft = true →
      extract_img_keys resolver (.attach [.dictWithToken ft]) = ⟨[ft], []⟩)
    ∧ extract_img_keys resolver (.str "") = ⟨[], []⟩
    ∧ (s ≠ "" → startsWithImg s = false → resolver s = none →
      extract_img_keys resolver (.str s) = ⟨[], [s]⟩)
    ∧ (resolver tok1 = some k → resolver tok2 = none →
        tok1 ≠ "" → tok2 ≠ "" →
        startsWithImg tok1 = false → startsWithImg tok2 = false →
      (build_pictures_list resolver [.str tok1, .str tok2]).length = 1) := by
  refine ⟨fun h => ?_, fun h => ?_, by simp [extract_img_keys],
    fun hs h hres => ?_, fun h1 h2 hn1 hn2 hp1 hp2 => ?_⟩
  · have hs : s ≠ "" := by
      rintro rfl
      simp [startsWithImg, headMatches] at h
    simp [extract_img_keys, hs, h]
  · simp [extract_img_keys, extract_attachment_keys, h]
  · simp [extract_img_keys, hs, h, hres]
  · simp [build_pictures_list, extract_img_keys, h1, h2, hn1, hn2, hp1, hp2]

/-- C9, witness: with a resolver succeeding on "t1" and failing on "t2",
the pass-through, empty, dropped-failure and one-of-two-pictures cases all
evaluate as stated. -/
theorem C9_image_resolution_witness :
    extract_img_keys (fun s => if s = "t1" then some "k1" else none)
        (.str "img_abc") = ⟨["img_abc"], []⟩
    ∧ extract_img_keys (fun s => if s = "t1" then some "k1" else none)
        (.attach [.dictWithToken "img_abc"]) = ⟨["img_abc"], []⟩
    ∧ extract_img_keys (fun s => if s = "t1" then some "k1" else none)
        (.str "t2") = ⟨[], ["t2"]⟩
    ∧ (build_pictures_list (fun s => if s = "t1" then some "k1" else none)
        [.str "t1", .str "t2"]).length = 1 :=
  ⟨(C9_image_resolution (fun s => if s = "t1" then some "k1" else none)
      "img_abc" "" "" "" "").1 (by decide),
   (C9_image_resolution (fun s => if s = "t1" then some "k1" else none)
      "" "img_abc" "" "" "").2.1 (by decide),
   (C9_image_resolution (fun s => if s = "t1" then some "k1" else none)
      "t2" "" "" "" "").2.2.2.1 (by decide) (by decide) (by decide),
   (C9_image_resolution (fun s => if s = "t1" then some "k1" else none)
      "" "" "t1" "t2" "k1").2.2.2.2 (by decide) (by decide) (by decide)
      (by decide) (by decide) (by decide)⟩

theorem build_pictures_list_i18n (resolver : String → Option String) :
    ∀ (fs : List FieldVal) (p : Picture),
      p ∈ build_pictures_list resolver fs →
      p.i18n_img_key = [("zh_cn", p.img_key)] := by
  intro fs
  induction fs with
  | nil => intro p hp; simp [build_pictures_list] at hp
  | cons f rest ih =>
    intro p hp
    simp only [build_pictures_list, List.mem_append, List.mem_map] at hp
    rcases hp with ⟨kk, _, rfl⟩ | hp
    · rfl
    · exact ih p hp

theorem parse_sheet_row_pictures {resolver : String → Option String}
    {row : List String} {item : Item}
    (h : parse_sheet_row resolver row = some item) :
    ∃ fs, item.pictures = build_pictures_list resolver fs := by
  unfold parse_sheet_row at h
  dsimp only at h
  split at h
  · exact Option.noConfusion h
  · obtain rfl := Option.some.inj h
    exact ⟨_, rfl⟩

theorem parse_bitable_record_pictures {resolver : String → Option String}
    {parseTimeStr : String → Option ℚ} {now : ℚ} {record : BitRecord}
    {item : Item}
    (h : parse_bitable_record resolver parseTimeStr now record = some item) :
    ∃ fs, item.pictures = build_pictures_list resolver fs := by
  unfold parse_bitable_record at h
  dsimp only at h
  repeat' split at h
  all_goals try exact Option.noConfusion h
  all_goals obtain rfl := Option.some.inj h
  all_goals exact ⟨_, rfl⟩

/-- C10: every picture entry produced by normalization, from either source
variant, carries a localized-key map with exactly the single locale "zh_cn"
mapped to the entry's own `img_key`. -/
theorem C10_i18n_single_locale (resolver : String → Option String)
    (parseTimeStr : String → Option ℚ) (now : ℚ) (data : SheetData)
    (item : Item) (p : Picture)
    (hitem : item ∈ parse_sheet_data resolver parseTimeStr now data)
    (hp : p ∈ item.pictures) :
    p.i18n_img_key = [("zh_cn", p.img_key)] := by
  cases data with
  | sheet rows =>
    simp only [parse_sheet_data, List.mem_filterMap] at hitem
    obtain ⟨row, _, hrow⟩ := hitem
    obtain ⟨fs, hfs⟩ := parse_sheet_row_pictures hrow
    rw [hfs] at hp
    exact build_pictures_list_i18n resolver fs p hp
  | bitable records =>
    simp only [parse_sheet_data, List.mem_filterMap] at hitem
    obtain ⟨r, _, hr⟩ := hitem
    obtain ⟨fs, hfs⟩ := parse_bitable_record_pictures hr
    rw [hfs] at hp
    exact build_pictures_list_i18n resolver fs p hp
  | other => simp [parse_sheet_data] at hitem

/-- C10, witness at a one-record bitable payload whose item carries one
picture. -/
theorem C10_i18n_single_locale_witness :
    Picture.i18n_img_key ⟨"img_a", [("zh_cn", "img_a")]⟩
      = [("zh_cn", "img_a")] :=
  C10_i18n_single_locale (fun _ => none) (fun _ => none) 0
    (SheetData.bitable [⟨"r1", [("名称", .str "x"),
      ("image_key1", .str "img_a")]⟩])
    ⟨.str "x", "", [⟨"img_a", [("zh_cn", "img_a")]⟩], ⟨"", "", "", ""⟩⟩
    ⟨"img_a", [("zh_cn", "img_a")]⟩ (by decide) (by decide)
